import Mathlib

/-!
Verification of the `pleme-middleware-rate-limit` core.

Shallow embedding of the two limiter components of the repository
(`src/limiter.rs` and `src/login.rs`) together with their shared
configuration (`src/config.rs`) and error type (`src/error.rs`).

Modelling decisions:
* `u64`/`u32` values (timestamps, window lengths, limits) become `Nat`.
  The only arithmetic the source performs on them is comparison,
  `saturating_sub`, one guarded unchecked subtraction and one addition,
  none of which can wrap for realistic epoch-second values; `Nat`
  subtraction coincides with `u64::saturating_sub`, and the one
  unchecked `u64` subtraction in the source is embedded through
  `checkedSub`, which returns `none` exactly when the machine
  subtraction would underflow (panic).
* The `HashMap<String, _>` guarded by the mutex becomes an association
  list `List (String × _)`; `lookup` returns the first binding of a key
  and `update` replaces the first binding in place (or appends a fresh
  one), matching `HashMap::entry` semantics, and `retain` becomes a
  structural traversal preserving order.
* Each public method is a pure function from the configuration, the map
  state, the argument and the current time `now` (the source reads the
  wall clock; here `now` is an explicit parameter) to its result and the
  new map state.  The mutex makes every such method body atomic, so a
  concurrent execution is a sequence of these atomic steps.
-/

/-- `RateLimitConfig` from `src/config.rs` (numeric fields as `Nat`). -/
structure RateLimitConfig where
  enabled : Bool
  max_requests_per_window : Nat
  rate_window_secs : Nat
  max_login_attempts : Nat
  lockout_duration_secs : Nat
deriving DecidableEq, Repr

/-- `RateLimitError` from `src/error.rs`. -/
inductive RateLimitError where
  | Exceeded : String → RateLimitError
  | AccountLocked : Nat → RateLimitError
deriving DecidableEq, Repr

/-- `u64::saturating_sub`: `Nat` subtraction already truncates at zero. -/
def saturatingSub (a b : Nat) : Nat := a - b

/-- Unchecked `u64` subtraction `a - b`: `none` models the underflow panic. -/
def checkedSub (a b : Nat) : Option Nat :=
  if b ≤ a then some (a - b) else none

/-- `Vec::retain(|&t| t > window_start)`: keep timestamps inside the window. -/
def pruneList (windowStart : Nat) (ts : List Nat) : List Nat :=
  ts.filter (fun t => decide (windowStart < t))

/-- First binding of `key` in an association list (`HashMap` read). -/
def lookup {α : Type} : List (String × α) → String → Option α
  | [], _ => none
  | (k, v) :: rest, key => if k = key then some v else lookup rest key

/-- Replace the first binding of `key` (or append one): `HashMap` write. -/
def update {α : Type} : List (String × α) → String → α → List (String × α)
  | [], key, v => [(key, v)]
  | (k, w) :: rest, key, v =>
    if k = key then (key, v) :: rest else (k, w) :: update rest key v

/-- State of `RateLimiter`: the map under `attempts: Mutex<HashMap<..>>`. -/
abbrev ReqMap := List (String × List Nat)

/-- The diagnostic string built by `RateLimitError::Exceeded` in
`check_rate_limit`. -/
def exceededMsg (cfg : RateLimitConfig) : String :=
  "Maximum " ++ toString cfg.max_requests_per_window ++ " requests per "
    ++ toString cfg.rate_window_secs ++ " seconds exceeded"

/-- `RateLimiter::check_rate_limit` (`src/limiter.rs`, lines 35–67):
short-circuit when disabled; otherwise fetch-or-create the key's list,
prune stale timestamps, reject without recording when at the limit,
else append `now`. -/
def RateLimiter.check_rate_limit (cfg : RateLimitConfig) (m : ReqMap)
    (key : String) (now : Nat) : Except RateLimitError Unit × ReqMap :=
  if cfg.enabled = false then (Except.ok (), m)
  else
    let windowStart := saturatingSub now cfg.rate_window_secs
    let attempt_list := (lookup m key).getD []
    let pruned := pruneList windowStart attempt_list
    if cfg.max_requests_per_window ≤ pruned.length then
      (Except.error (RateLimitError.Exceeded (exceededMsg cfg)),
        update m key pruned)
    else
      (Except.ok (), update m key (pruned ++ [now]))

/-- `RateLimiter::cleanup` (`src/limiter.rs`, lines 70–84): per entry,
prune stale timestamps and drop the entry when nothing remains. -/
def RateLimiter.cleanup (cfg : RateLimitConfig) (now : Nat) :
    ReqMap → ReqMap
  | [] => []
  | (k, ts) :: rest =>
    let ts2 := pruneList (saturatingSub now cfg.rate_window_secs) ts
    if ts2.isEmpty then RateLimiter.cleanup cfg now rest
    else (k, ts2) :: RateLimiter.cleanup cfg now rest

/-- `LoginAttemptInfo` from `src/login.rs`. -/
structure LoginAttemptInfo where
  attempts : List Nat
  locked_until : Option Nat
deriving DecidableEq, Repr

/-- State of `LoginRateLimiter`: the map under `login_attempts`. -/
abbrev LoginMap := List (String × LoginAttemptInfo)

/-- The record a fresh `entry(..).or_insert(..)` creates. -/
def emptyInfo : LoginAttemptInfo := { attempts := [], locked_until := none }

/-- The open-state tail of `check_login_attempt` (`src/login.rs`,
lines 65–77): prune the attempts, lock when at the limit, else succeed
recording nothing. -/
def LoginRateLimiter.checkOpen (cfg : RateLimitConfig) (m : LoginMap)
    (id : String) (now : Nat) (info : LoginAttemptInfo) :
    Option (Except RateLimitError Unit × LoginMap) :=
  let pruned :=
    pruneList (saturatingSub now cfg.rate_window_secs) info.attempts
  if cfg.max_login_attempts ≤ pruned.length then
    some (Except.error
          (RateLimitError.AccountLocked (now + cfg.lockout_duration_secs)),
      update m id
        { attempts := pruned,
          locked_until := some (now + cfg.lockout_duration_secs) })
  else
    some (Except.ok (),
      update m id { attempts := pruned, locked_until := info.locked_until })

/-- `LoginRateLimiter::check_login_attempt` (`src/login.rs`,
lines 34–78): short-circuit when disabled; reject while a lockout
deadline lies in the future (the `locked_until - now` of the source is
embedded via `checkedSub`, whose `none` would be the underflow panic);
clear deadline and history once the deadline has passed; then proceed
with the open-state rules. -/
def LoginRateLimiter.check_login_attempt (cfg : RateLimitConfig)
    (m : LoginMap) (id : String) (now : Nat) :
    Option (Except RateLimitError Unit × LoginMap) :=
  if cfg.enabled = false then some (Except.ok (), m)
  else
    let info := (lookup m id).getD emptyInfo
    match info.locked_until with
    | some lu =>
      if now < lu then
        match checkedSub lu now with
        | none => none
        | some _ =>
          some (Except.error (RateLimitError.AccountLocked lu),
            update m id info)
      else
        LoginRateLimiter.checkOpen cfg m id now emptyInfo
    | none => LoginRateLimiter.checkOpen cfg m id now info

/-- `LoginRateLimiter::record_failed_attempt` (`src/login.rs`,
lines 80–95): fetch-or-create the record and append `now`; the lockout
field is never inspected or modified. -/
def LoginRateLimiter.record_failed_attempt (m : LoginMap) (id : String)
    (now : Nat) : LoginMap :=
  let info := (lookup m id).getD emptyInfo
  update m id
    { attempts := info.attempts ++ [now], locked_until := info.locked_until }

/-- `LoginRateLimiter::clear_attempts` (`src/login.rs`, lines 98–102):
remove the identifier's record entirely. -/
def LoginRateLimiter.clear_attempts (m : LoginMap) (id : String) :
    LoginMap :=
  m.filter (fun p => decide (p.1 ≠ id))

/-- `LoginRateLimiter::cleanup` (`src/login.rs`, lines 105–126): keep a
record untouched while its lockout deadline is in the future; otherwise
prune its attempts and drop it when none remain. -/
def LoginRateLimiter.cleanup (cfg : RateLimitConfig) (now : Nat) :
    LoginMap → LoginMap
  | [] => []
  | (k, info) :: rest =>
    if (match info.locked_until with
        | some lu => decide (now < lu)
        | none => false) then
      (k, info) :: LoginRateLimiter.cleanup cfg now rest
    else
      let a2 :=
        pruneList (saturatingSub now cfg.rate_window_secs) info.attempts
      if a2.isEmpty then LoginRateLimiter.cleanup cfg now rest
      else (k, { attempts := a2, locked_until := info.locked_until }) ::
        LoginRateLimiter.cleanup cfg now rest

/-- Sequential composition of `n` atomic `check_rate_limit` calls on one
key at one timestamp, returning how many succeeded, how many failed with
`Exceeded`, and the final map.  Under the mutex each call is atomic, so
any interleaving of `n` identical concurrent calls executes as this
sequence. -/
def RateLimiter.repeatCheck (cfg : RateLimitConfig) (key : String)
    (now : Nat) : Nat → ReqMap → (Nat × Nat) × ReqMap
  | 0, m => ((0, 0), m)
  | n + 1, m =>
    match RateLimiter.check_rate_limit cfg m key now with
    | (Except.ok _, m1) =>
      let r := RateLimiter.repeatCheck cfg key now n m1
      ((r.1.1 + 1, r.1.2), r.2)
    | (Except.error (RateLimitError.Exceeded _), m1) =>
      let r := RateLimiter.repeatCheck cfg key now n m1
      ((r.1.1, r.1.2 + 1), r.2)
    | (Except.error (RateLimitError.AccountLocked _), m1) =>
      let r := RateLimiter.repeatCheck cfg key now n m1
      (r.1, r.2)

/-- `n` consecutive `record_failed_attempt` calls at one timestamp. -/
def LoginRateLimiter.recordN (m : LoginMap) (id : String) (now : Nat) :
    Nat → LoginMap
  | 0 => m
  | n + 1 =>
    LoginRateLimiter.record_failed_attempt
      (LoginRateLimiter.recordN m id now n) id now

/-! ## Basic lemmas about the map and window primitives -/

theorem lookup_update_self {α : Type} (m : List (String × α)) (k : String)
    (v : α) : lookup (update m k v) k = some v := by
  induction m with
  | nil => simp [update, lookup]
  | cons p rest ih =>
    cases p with
    | mk k1 v1 =>
      by_cases h : k1 = k
      · simp [update, lookup, h]
      · simp [update, lookup, h, ih]

theorem lookup_update_ne {α : Type} (m : List (String × α)) (k k2 : String)
    (v : α) (hne : k ≠ k2) : lookup (update m k v) k2 = lookup m k2 := by
  induction m with
  | nil => simp [update, lookup, hne]
  | cons p rest ih =>
    cases p with
    | mk k1 v1 =>
      by_cases h : k1 = k
      · subst h
        simp [update, lookup, hne]
      · simp [update, lookup, h, ih]

theorem update_self {α : Type} (m : List (String × α)) (k : String) (v : α)
    (h : lookup m k = some v) : update m k v = m := by
  induction m with
  | nil => simp [lookup] at h
  | cons p rest ih =>
    cases p with
    | mk k1 v1 =>
      by_cases hk : k1 = k
      · subst hk
        simp [lookup] at h
        simp [update, h]
      · simp [lookup, hk] at h
        simp [update, hk, ih h]

theorem pruneList_mem {windowStart t : Nat} {l : List Nat}
    (h : t ∈ pruneList windowStart l) : windowStart < t := by
  simp only [pruneList, List.mem_filter, decide_eq_true_eq] at h
  exact h.2

theorem pruneList_eq_self {windowStart : Nat} {l : List Nat}
    (h : ∀ t ∈ l, windowStart < t) : pruneList windowStart l = l := by
  simp only [pruneList]
  exact List.filter_eq_self.mpr (fun t ht => decide_eq_true (h t ht))

theorem pruneList_idem (windowStart : Nat) (l : List Nat) :
    pruneList windowStart (pruneList windowStart l)
      = pruneList windowStart l :=
  pruneList_eq_self (fun _ ht => pruneList_mem ht)

theorem pruneList_append (windowStart : Nat) (l1 l2 : List Nat) :
    pruneList windowStart (l1 ++ l2)
      = pruneList windowStart l1 ++ pruneList windowStart l2 := by
  simp [pruneList, List.filter_append]

/-- The record as it stands after the lockout-expiry step of
`check_login_attempt` (`src/login.rs`, lines 51–63): unchanged when no
deadline exists or the deadline is still ahead, cleared once passed. -/
def LoginAttemptInfo.afterExpiry (info : LoginAttemptInfo) (now : Nat) :
    LoginAttemptInfo :=
  match info.locked_until with
  | some lu => if now < lu then info else emptyInfo
  | none => info

/-! ## Claim theorems -/

/-- C7: with `enabled = false`, `check_rate_limit` and
`check_login_attempt` succeed for every key/identifier and every prior
state and leave the underlying maps entirely unchanged. -/
theorem c7_disabled_noop (cfg : RateLimitConfig) (m : ReqMap)
    (lm : LoginMap) (key id : String) (now : Nat)
    (hdis : cfg.enabled = false) :
    RateLimiter.check_rate_limit cfg m key now = (Except.ok (), m)
    ∧ LoginRateLimiter.check_login_attempt cfg lm id now
        = some (Except.ok (), lm) := by
  constructor
  · simp [RateLimiter.check_rate_limit, hdis]
  · simp [LoginRateLimiter.check_login_attempt, hdis]

/-- Witness for C7 at a concrete disabled configuration and non-empty
prior state. -/
theorem c7_disabled_noop_witness :
    RateLimiter.check_rate_limit ⟨false, 100, 60, 5, 300⟩ [("k", [1])] "k" 7
      = (Except.ok (), [("k", [1])])
    ∧ LoginRateLimiter.check_login_attempt ⟨false, 100, 60, 5, 300⟩
        [("u", ⟨[2], some 9⟩)] "u" 7
      = some (Except.ok (), [("u", ⟨[2], some 9⟩)]) :=
  c7_disabled_noop ⟨false, 100, 60, 5, 300⟩ [("k", [1])]
    [("u", ⟨[2], some 9⟩)] "k" "u" 7 rfl

/-- C4: while a lockout deadline `t` lies strictly in the future,
`check_login_attempt` fails with `AccountLocked t`, the record (and the
whole map) is left unchanged, and the remaining time `t - now` is
computable without underflow. -/
theorem c4_locked_frozen (cfg : RateLimitConfig) (m : LoginMap)
    (id : String) (now t : Nat) (info : LoginAttemptInfo)
    (hen : cfg.enabled = true) (hl : lookup m id = some info)
    (hlock : info.locked_until = some t) (hnow : now < t) :
    LoginRateLimiter.check_login_attempt cfg m id now
      = some (Except.error (RateLimitError.AccountLocked t), m)
    ∧ checkedSub t now = some (t - now) := by
  have hsub : checkedSub t now = some (t - now) := by
    simp [checkedSub, Nat.le_of_lt hnow]
  refine ⟨?_, hsub⟩
  simp [LoginRateLimiter.check_login_attempt, hen, hl, hlock, hnow, hsub,
    update_self m id info hl]

/-- Witness for C4: identifier locked until 500, checked at 100. -/
theorem c4_locked_frozen_witness :
    LoginRateLimiter.check_login_attempt ⟨true, 100, 60, 5, 300⟩
        [("u", ⟨[1, 2, 3], some 500⟩)] "u" 100
      = some (Except.error (RateLimitError.AccountLocked 500),
          [("u", ⟨[1, 2, 3], some 500⟩)])
    ∧ checkedSub 500 100 = some 400 :=
  c4_locked_frozen ⟨true, 100, 60, 5, 300⟩ [("u", ⟨[1, 2, 3], some 500⟩)]
    "u" 100 500 ⟨[1, 2, 3], some 500⟩ rfl rfl rfl (by decide)

theorem checkOpen_isSome (cfg : RateLimitConfig) (m : LoginMap)
    (id : String) (now : Nat) (info : LoginAttemptInfo) :
    (LoginRateLimiter.checkOpen cfg m id now info).isSome = true := by
  simp only [LoginRateLimiter.checkOpen]
  split <;> rfl

/-- C10: no arithmetic underflow is reachable: `check_login_attempt`
never hits the underflow branch of its guarded `locked_until - now`
subtraction (it never returns `none`), and the window boundary
`now.saturating_sub(rate_window_secs)` is a well-defined zero whenever
the window length exceeds `now`. -/
theorem c10_no_underflow :
    (∀ (cfg : RateLimitConfig) (m : LoginMap) (id : String) (now : Nat),
      (LoginRateLimiter.check_login_attempt cfg m id now).isSome = true)
    ∧ (∀ now w : Nat, now < w → saturatingSub now w = 0) := by
  constructor
  · intro cfg m id now
    unfold LoginRateLimiter.check_login_attempt
    by_cases hen : cfg.enabled = false
    · simp [hen]
    · simp only [hen, if_false]
      cases hlu : ((lookup m id).getD emptyInfo).locked_until with
      | none => simp [hlu, checkOpen_isSome]
      | some lu =>
        by_cases hlt : now < lu
        · have hsub : checkedSub lu now = some (lu - now) := by
            simp [checkedSub, Nat.le_of_lt hlt]
          simp [hlu, hlt, hsub]
        · simp [hlu, hlt, checkOpen_isSome]
  · intro now w h
    simp [saturatingSub, Nat.sub_eq_zero_of_le (Nat.le_of_lt h)]

/-- Witness for C10: a locked record checked one second before its
deadline, and a window longer than the clock value. -/
theorem c10_no_underflow_witness :
    (LoginRateLimiter.check_login_attempt ⟨true, 100, 60, 5, 300⟩
        [("u", ⟨[3], some 9⟩)] "u" 8).isSome = true
    ∧ saturatingSub 4 9 = 0 :=
  ⟨c10_no_underflow.1 ⟨true, 100, 60, 5, 300⟩ [("u", ⟨[3], some 9⟩)] "u" 8,
   c10_no_underflow.2 4 9 (by decide)⟩

theorem afterExpiry_unlocked (info : LoginAttemptInfo) (now : Nat)
    (hopen : ∀ t, info.locked_until = some t → t ≤ now) :
    (info.afterExpiry now).locked_until = none := by
  unfold LoginAttemptInfo.afterExpiry
  cases hlu : info.locked_until with
  | none => simp [hlu]
  | some t => simp [Nat.not_lt.mpr (hopen t hlu), emptyInfo]

theorem check_login_eq_checkOpen (cfg : RateLimitConfig) (m : LoginMap)
    (id : String) (now : Nat) (hen : cfg.enabled = true)
    (hopen : ∀ t, ((lookup m id).getD emptyInfo).locked_until = some t →
      t ≤ now) :
    LoginRateLimiter.check_login_attempt cfg m id now
      = LoginRateLimiter.checkOpen cfg m id now
          (((lookup m id).getD emptyInfo).afterExpiry now) := by
  unfold LoginRateLimiter.check_login_attempt LoginAttemptInfo.afterExpiry
  cases hlu : ((lookup m id).getD emptyInfo).locked_until with
  | none => simp [hen, hlu]
  | some t =>
    have ht : ¬ now < t := Nat.not_lt.mpr (hopen t hlu)
    simp [hen, hlu, ht]

/-- C2: for an identifier without an active lockout (no deadline, or a
deadline already passed and hence just cleared), `check_login_attempt`
locks the account at `now + lockout_duration_secs` — returning
`AccountLocked` with exactly that deadline — when the pruned attempt
count reaches `max_login_attempts`, and otherwise succeeds without
appending any timestamp. -/
theorem c2_open_transition (cfg : RateLimitConfig) (m : LoginMap)
    (id : String) (now : Nat) (hen : cfg.enabled = true)
    (hopen : ∀ t, ((lookup m id).getD emptyInfo).locked_until = some t →
      t ≤ now) :
    (cfg.max_login_attempts ≤
        (pruneList (saturatingSub now cfg.rate_window_secs)
          (((lookup m id).getD emptyInfo).afterExpiry now).attempts).length →
      LoginRateLimiter.check_login_attempt cfg m id now
        = some (Except.error (RateLimitError.AccountLocked
              (now + cfg.lockout_duration_secs)),
            update m id
              ⟨pruneList (saturatingSub now cfg.rate_window_secs)
                 (((lookup m id).getD emptyInfo).afterExpiry now).attempts,
               some (now + cfg.lockout_duration_secs)⟩))
    ∧ ((pruneList (saturatingSub now cfg.rate_window_secs)
          (((lookup m id).getD emptyInfo).afterExpiry now).attempts).length
          < cfg.max_login_attempts →
      LoginRateLimiter.check_login_attempt cfg m id now
        = some (Except.ok (),
            update m id
              ⟨pruneList (saturatingSub now cfg.rate_window_secs)
                 (((lookup m id).getD emptyInfo).afterExpiry now).attempts,
               none⟩)) := by
  rw [check_login_eq_checkOpen cfg m id now hen hopen]
  constructor <;> intro hlen
  · simp [LoginRateLimiter.checkOpen, hlen]
  · simp [LoginRateLimiter.checkOpen, Nat.not_le.mpr hlen,
      afterExpiry_unlocked ((lookup m id).getD emptyInfo) now hopen]

/-- Witness for C2: three in-window failures with `max_login_attempts = 3`
lock the account until `now + 300`. -/
theorem c2_open_transition_witness :
    LoginRateLimiter.check_login_attempt ⟨true, 100, 60, 3, 300⟩
        [("u", ⟨[90, 95, 99], none⟩)] "u" 100
      = some (Except.error (RateLimitError.AccountLocked (100 + 300)),
          update [("u", ⟨[90, 95, 99], none⟩)] "u"
            ⟨pruneList (saturatingSub 100 60)
               ((((lookup [("u", ⟨[90, 95, 99], none⟩)] "u").getD
                  emptyInfo).afterExpiry 100)).attempts,
             some (100 + 300)⟩) :=
  (c2_open_transition ⟨true, 100, 60, 3, 300⟩ [("u", ⟨[90, 95, 99], none⟩)]
    "u" 100 rfl (fun _ ht => Option.noConfusion ht)).1 (by decide)

theorem lookup_recordN (m : LoginMap) (id : String) (now : Nat)
    (h : lookup m id = some emptyInfo) :
    ∀ k, lookup (LoginRateLimiter.recordN m id now k) id
      = some ⟨List.replicate k now, none⟩ := by
  intro k
  induction k with
  | zero => simpa [LoginRateLimiter.recordN, emptyInfo] using h
  | succ k ih =>
    simp [LoginRateLimiter.recordN, LoginRateLimiter.record_failed_attempt,
      ih, lookup_update_self, List.replicate_succ']

/-- C3: a check performed at or after the lockout deadline clears both
the deadline and the whole attempt history and (given a positive limit)
succeeds; afterwards, re-triggering lockout takes `max_login_attempts`
freshly recorded failures — any smaller number still passes the check. -/
theorem c3_expiry_clears_history (cfg : RateLimitConfig) (m : LoginMap)
    (id : String) (now t : Nat) (hen : cfg.enabled = true)
    (hlock : ((lookup m id).getD emptyInfo).locked_until = some t)
    (ht : t ≤ now) (hmax : 0 < cfg.max_login_attempts) :
    LoginRateLimiter.check_login_attempt cfg m id now
      = some (Except.ok (), update m id emptyInfo)
    ∧ (saturatingSub now cfg.rate_window_secs < now →
        (∀ k, k < cfg.max_login_attempts →
          (LoginRateLimiter.check_login_attempt cfg
              (LoginRateLimiter.recordN (update m id emptyInfo) id now k)
              id now).map Prod.fst = some (Except.ok ()))
        ∧ (LoginRateLimiter.check_login_attempt cfg
            (LoginRateLimiter.recordN (update m id emptyInfo) id now
              cfg.max_login_attempts) id now).map Prod.fst
          = some (Except.error (RateLimitError.AccountLocked
              (now + cfg.lockout_duration_secs)))) := by
  have hopen : ∀ t2, ((lookup m id).getD emptyInfo).locked_until = some t2 →
      t2 ≤ now := by
    intro t2 h2
    rw [hlock] at h2
    exact (Option.some_injective _ h2) ▸ ht
  have hafter : ((lookup m id).getD emptyInfo).afterExpiry now = emptyInfo := by
    simp [LoginAttemptInfo.afterExpiry, hlock, Nat.not_lt.mpr ht]
  constructor
  · rw [check_login_eq_checkOpen cfg m id now hen hopen, hafter]
    simp [LoginRateLimiter.checkOpen, emptyInfo, pruneList,
      Nat.not_le.mpr hmax]
  · intro hwin
    have hbase : lookup (update m id emptyInfo) id = some emptyInfo :=
      lookup_update_self m id emptyInfo
    have hrec := lookup_recordN (update m id emptyInfo) id now hbase
    have hcheck : ∀ k,
        LoginRateLimiter.check_login_attempt cfg
            (LoginRateLimiter.recordN (update m id emptyInfo) id now k)
            id now
          = LoginRateLimiter.checkOpen cfg
              (LoginRateLimiter.recordN (update m id emptyInfo) id now k)
              id now ⟨List.replicate k now, none⟩ := by
      intro k
      rw [check_login_eq_checkOpen cfg _ id now hen
        (by intro t2 h2; rw [hrec k] at h2; simp at h2)]
      rw [hrec k]
      simp [LoginAttemptInfo.afterExpiry]
    have hprune : ∀ k, pruneList (saturatingSub now cfg.rate_window_secs)
        (List.replicate k now) = List.replicate k now := by
      intro k
      refine pruneList_eq_self ?_
      intro x hx
      rw [List.eq_of_mem_replicate hx]
      exact hwin
    constructor
    · intro k hk
      rw [hcheck k]
      simp [LoginRateLimiter.checkOpen, hprune k, Nat.not_le.mpr hk]
    · rw [hcheck cfg.max_login_attempts]
      simp [LoginRateLimiter.checkOpen, hprune cfg.max_login_attempts]

/-- Witness for C3: lockout expired at 50, checked at 100 with
`max_login_attempts = 2`; one fresh failure still passes, two lock. -/
theorem c3_expiry_clears_history_witness :
    LoginRateLimiter.check_login_attempt ⟨true, 100, 60, 2, 300⟩
        [("u", ⟨[90, 95], some 50⟩)] "u" 100
      = some (Except.ok (),
          update [("u", ⟨[90, 95], some 50⟩)] "u" emptyInfo)
    ∧ (LoginRateLimiter.check_login_attempt ⟨true, 100, 60, 2, 300⟩
        (LoginRateLimiter.recordN
          (update [("u", ⟨[90, 95], some 50⟩)] "u" emptyInfo) "u" 100 1)
        "u" 100).map Prod.fst = some (Except.ok ())
    ∧ (LoginRateLimiter.check_login_attempt ⟨true, 100, 60, 2, 300⟩
        (LoginRateLimiter.recordN
          (update [("u", ⟨[90, 95], some 50⟩)] "u" emptyInfo) "u" 100 2)
        "u" 100).map Prod.fst
      = some (Except.error (RateLimitError.AccountLocked (100 + 300))) := by
  have h := c3_expiry_clears_history ⟨true, 100, 60, 2, 300⟩
    [("u", ⟨[90, 95], some 50⟩)] "u" 100 50 rfl (by decide) (by decide)
    (by decide)
  exact ⟨h.1, (h.2 (by decide)).1 1 (by decide), (h.2 (by decide)).2⟩

theorem repeatCheck_counts (cfg : RateLimitConfig) (key : String)
    (now : Nat) (hen : cfg.enabled = true)
    (hwin : saturatingSub now cfg.rate_window_secs < now) :
    ∀ (n : Nat) (m : ReqMap),
      (∀ t ∈ (lookup m key).getD [],
        saturatingSub now cfg.rate_window_secs < t) →
      (RateLimiter.repeatCheck cfg key now n m).1
        = (min n (cfg.max_requests_per_window
              - ((lookup m key).getD []).length),
           n - min n (cfg.max_requests_per_window
              - ((lookup m key).getD []).length)) := by
  intro n
  induction n with
  | zero => intro m hm; simp [RateLimiter.repeatCheck]
  | succ n ih =>
    intro m hm
    have hprune : pruneList (saturatingSub now cfg.rate_window_secs)
        ((lookup m key).getD []) = (lookup m key).getD [] :=
      pruneList_eq_self hm
    by_cases hlim : cfg.max_requests_per_window
        ≤ ((lookup m key).getD []).length
    · have hcheck : RateLimiter.check_rate_limit cfg m key now
          = (Except.error (RateLimitError.Exceeded (exceededMsg cfg)),
             update m key ((lookup m key).getD [])) := by
        simp [RateLimiter.check_rate_limit, hen, hprune, hlim]
      have hm1 : (lookup (update m key ((lookup m key).getD [])) key).getD []
          = (lookup m key).getD [] := by
        rw [lookup_update_self]; rfl
      have ihm := ih (update m key ((lookup m key).getD []))
        (by rw [hm1]; exact hm)
      rw [hm1] at ihm
      rcases hr : RateLimiter.repeatCheck cfg key now n
          (update m key ((lookup m key).getD [])) with ⟨⟨s, f⟩, m2⟩
      rw [hr] at ihm
      simp only [Prod.mk.injEq] at ihm
      simp only [RateLimiter.repeatCheck, hcheck, hr]
      simp only [Prod.mk.injEq]
      omega
    · have hcheck : RateLimiter.check_rate_limit cfg m key now
          = (Except.ok (),
             update m key ((lookup m key).getD [] ++ [now])) := by
        simp [RateLimiter.check_rate_limit, hen, hprune, hlim]
      have hm1 : (lookup (update m key
            ((lookup m key).getD [] ++ [now])) key).getD []
          = (lookup m key).getD [] ++ [now] := by
        rw [lookup_update_self]; rfl
      have hmem : ∀ t ∈ (lookup m key).getD [] ++ [now],
          saturatingSub now cfg.rate_window_secs < t := by
        intro t ht
        rcases List.mem_append.mp ht with h1 | h2
        · exact hm t h1
        · rw [List.mem_singleton.mp h2]; exact hwin
      have ihm := ih (update m key ((lookup m key).getD [] ++ [now]))
        (by rw [hm1]; exact hmem)
      rw [hm1] at ihm
      rcases hr : RateLimiter.repeatCheck cfg key now n
          (update m key ((lookup m key).getD [] ++ [now])) with ⟨⟨s, f⟩, m2⟩
      rw [hr] at ihm
      simp only [Prod.mk.injEq, List.length_append, List.length_singleton]
        at ihm
      simp only [RateLimiter.repeatCheck, hcheck, hr]
      simp only [Prod.mk.injEq]
      omega

/-- C1: with the limiter enabled, a check whose pruned sequence already
holds `max_requests_per_window` timestamps fails with `Exceeded` and
stores exactly the pruned sequence (the rejected call is not recorded),
while a check under the limit appends `now` and succeeds; consequently
`max_requests_per_window + 5` calls in rapid succession inside one
window (window boundary strictly below `now`) admit exactly
`max_requests_per_window` of them. -/
theorem c1_check_then_increment (cfg : RateLimitConfig) (key : String)
    (now : Nat) (hen : cfg.enabled = true) :
    (∀ m : ReqMap,
      (cfg.max_requests_per_window ≤
          (pruneList (saturatingSub now cfg.rate_window_secs)
            ((lookup m key).getD [])).length →
        RateLimiter.check_rate_limit cfg m key now
          = (Except.error (RateLimitError.Exceeded (exceededMsg cfg)),
             update m key (pruneList (saturatingSub now cfg.rate_window_secs)
               ((lookup m key).getD []))))
      ∧ ((pruneList (saturatingSub now cfg.rate_window_secs)
            ((lookup m key).getD [])).length < cfg.max_requests_per_window →
        RateLimiter.check_rate_limit cfg m key now
          = (Except.ok (),
             update m key (pruneList (saturatingSub now cfg.rate_window_secs)
               ((lookup m key).getD []) ++ [now]))))
    ∧ (saturatingSub now cfg.rate_window_secs < now →
        (RateLimiter.repeatCheck cfg key now
            (cfg.max_requests_per_window + 5) []).1
          = (cfg.max_requests_per_window, 5)) := by
  constructor
  · intro m
    constructor <;> intro hlen
    · simp [RateLimiter.check_rate_limit, hen, hlen]
    · simp [RateLimiter.check_rate_limit, hen, Nat.not_le.mpr hlen]
  · intro hwin
    have h := repeatCheck_counts cfg key now hen hwin
      (cfg.max_requests_per_window + 5) [] (by simp [lookup])
    simp only [lookup, Option.getD_none, List.length_nil, Nat.sub_zero] at h
    rw [h]
    have : min (cfg.max_requests_per_window + 5)
        cfg.max_requests_per_window = cfg.max_requests_per_window := by omega
    rw [this]
    simp

/-- Witness for C1: limit 2, window 60, time 100; a full sequence is
rejected unchanged, a fresh key admits, and 7 calls admit exactly 2. -/
theorem c1_check_then_increment_witness :
    RateLimiter.check_rate_limit ⟨true, 2, 60, 5, 300⟩
        [("k", [90, 95])] "k" 100
      = (Except.error (RateLimitError.Exceeded (exceededMsg
            ⟨true, 2, 60, 5, 300⟩)),
         update [("k", [90, 95])] "k"
           (pruneList (saturatingSub 100 60)
             ((lookup [("k", [90, 95])] "k").getD [])))
    ∧ RateLimiter.check_rate_limit ⟨true, 2, 60, 5, 300⟩ [] "k" 100
      = (Except.ok (),
         update [] "k" (pruneList (saturatingSub 100 60)
           ((lookup ([] : ReqMap) "k").getD []) ++ [100]))
    ∧ (RateLimiter.repeatCheck ⟨true, 2, 60, 5, 300⟩ "k" 100 7 []).1
      = (2, 5) := by
  have h1 := c1_check_then_increment ⟨true, 2, 60, 5, 300⟩ "k" 100 rfl
  exact ⟨(h1.1 [("k", [90, 95])]).1 (by decide),
    (h1.1 []).2 (by decide), h1.2 (by decide)⟩

/-- C8: `N` concurrent callers on one key are serialized by the mutex,
so any interleaving executes as `N` consecutive atomic checks at the
same clock second; with budget `M = max_requests_per_window ≤ N` and
the window boundary strictly below `now`, exactly `M` of them succeed
and the other `N − M` fail with `Exceeded`. -/
theorem c8_serialized_admission (cfg : RateLimitConfig) (key : String)
    (now N : Nat) (hen : cfg.enabled = true)
    (hwin : saturatingSub now cfg.rate_window_secs < now)
    (hN : cfg.max_requests_per_window ≤ N) :
    (RateLimiter.repeatCheck cfg key now N []).1
      = (cfg.max_requests_per_window, N - cfg.max_requests_per_window) := by
  have h := repeatCheck_counts cfg key now hen hwin N [] (by simp [lookup])
  simp only [lookup, Option.getD_none, List.length_nil, Nat.sub_zero] at h
  rw [h]
  have : min N cfg.max_requests_per_window = cfg.max_requests_per_window :=
    by omega
  rw [this]

/-- Witness for C8: 10 callers against a budget of 3 admit 3, reject 7. -/
theorem c8_serialized_admission_witness :
    (RateLimiter.repeatCheck ⟨true, 3, 60, 5, 300⟩ "k" 100 10 []).1
      = (3, 7) :=
  c8_serialized_admission ⟨true, 3, 60, 5, 300⟩ "k" 100 10 rfl (by decide)
    (by decide)

theorem lookup_req_cleanup_mem (cfg : RateLimitConfig) (now : Nat) :
    ∀ (m : ReqMap) (k : String) (l : List Nat),
      lookup (RateLimiter.cleanup cfg now m) k = some l →
      ∀ t ∈ l, saturatingSub now cfg.rate_window_secs < t := by
  intro m
  induction m with
  | nil => intro k l h; simp [RateLimiter.cleanup, lookup] at h
  | cons p rest ih =>
    intro k l h
    cases p with
    | mk k1 ts =>
      simp only [RateLimiter.cleanup] at h
      by_cases he :
          (pruneList (saturatingSub now cfg.rate_window_secs) ts).isEmpty
      · rw [if_pos he] at h
        exact ih k l h
      · rw [if_neg he] at h
        simp only [lookup] at h
        by_cases hk : k1 = k
        · rw [if_pos hk] at h
          have hl : pruneList (saturatingSub now cfg.rate_window_secs) ts
              = l := Option.some_injective _ h
          intro t ht
          rw [← hl] at ht
          exact pruneList_mem ht
        · rw [if_neg hk] at h
          exact ih k l h

/-- C5-counterexample: with `rate_window_secs = 0`, a successful
enabled check at `now = 5` stores the timestamp `5`, which is not
strictly greater than the window boundary `5 - 0`; the claimed
invariant fails right after the access. -/
theorem c5_window_invariant_counterexample :
    lookup (RateLimiter.check_rate_limit ⟨true, 1, 0, 5, 300⟩
        [] "k" 5).2 "k" = some [5]
    ∧ ¬ (∀ t ∈ [5], saturatingSub 5 (RateLimitConfig.mk true 1 0 5
          300).rate_window_secs < t) := by
  constructor
  · decide
  · decide

/-- C5 (amended): after `cleanup`, every remaining timestamp of every
key is strictly greater than `now - rate_window_secs`, unconditionally;
after an enabled `check_rate_limit` the same holds for the touched key
provided the window boundary lies strictly below `now` (in particular
whenever `rate_window_secs > 0` and `now > 0`) — without that proviso
the just-appended timestamp `now` itself violates the bound. -/
theorem c5_window_invariant (cfg : RateLimitConfig) (m : ReqMap)
    (key : String) (now : Nat) (hen : cfg.enabled = true) :
    ((saturatingSub now cfg.rate_window_secs < now) →
      ∀ l, lookup (RateLimiter.check_rate_limit cfg m key now).2 key
          = some l →
        ∀ t ∈ l, saturatingSub now cfg.rate_window_secs < t)
    ∧ (∀ k l, lookup (RateLimiter.cleanup cfg now m) k = some l →
        ∀ t ∈ l, saturatingSub now cfg.rate_window_secs < t) := by
  constructor
  · intro hwin l hl
    by_cases hlim : cfg.max_requests_per_window ≤
        (pruneList (saturatingSub now cfg.rate_window_secs)
          ((lookup m key).getD [])).length
    · have hmap : (RateLimiter.check_rate_limit cfg m key now).2
          = update m key (pruneList (saturatingSub now cfg.rate_window_secs)
              ((lookup m key).getD [])) := by
        simp [RateLimiter.check_rate_limit, hen, hlim]
      rw [hmap, lookup_update_self] at hl
      have := Option.some_injective _ hl
      intro t ht
      rw [← this] at ht
      exact pruneList_mem ht
    · have hmap : (RateLimiter.check_rate_limit cfg m key now).2
          = update m key (pruneList (saturatingSub now cfg.rate_window_secs)
              ((lookup m key).getD []) ++ [now]) := by
        simp [RateLimiter.check_rate_limit, hen, hlim]
      rw [hmap, lookup_update_self] at hl
      have := Option.some_injective _ hl
      intro t ht
      rw [← this] at ht
      rcases List.mem_append.mp ht with h1 | h2
      · exact pruneList_mem h1
      · rw [List.mem_singleton.mp h2]
        exact hwin
  · exact lookup_req_cleanup_mem cfg now m

/-- Witness for the amended C5: limit 2, window 60, `now = 100`. -/
theorem c5_window_invariant_witness :
    (∀ l, lookup (RateLimiter.check_rate_limit ⟨true, 2, 60, 5, 300⟩
        [("k", [90, 10])] "k" 100).2 "k" = some l →
      ∀ t ∈ l, saturatingSub 100 60 < t)
    ∧ (∀ k l, lookup (RateLimiter.cleanup ⟨true, 2, 60, 5, 300⟩ 100
        [("k", [90, 10])]) k = some l →
      ∀ t ∈ l, saturatingSub 100 60 < t) :=
  ⟨(c5_window_invariant ⟨true, 2, 60, 5, 300⟩ [("k", [90, 10])] "k" 100
      rfl).1 (by decide),
   (c5_window_invariant ⟨true, 2, 60, 5, 300⟩ [("k", [90, 10])] "k" 100
      rfl).2⟩

theorem req_cleanup_idem (cfg : RateLimitConfig) (now : Nat) :
    ∀ m : ReqMap,
      RateLimiter.cleanup cfg now (RateLimiter.cleanup cfg now m)
        = RateLimiter.cleanup cfg now m := by
  intro m
  induction m with
  | nil => rfl
  | cons p rest ih =>
    cases p with
    | mk k ts =>
      simp only [RateLimiter.cleanup]
      by_cases he :
          (pruneList (saturatingSub now cfg.rate_window_secs) ts).isEmpty
      · rw [if_pos he, ih]
      · rw [if_neg he]
        simp only [RateLimiter.cleanup, pruneList_idem]
        rw [if_neg he, ih]

theorem login_cleanup_idem (cfg : RateLimitConfig) (now : Nat) :
    ∀ m : LoginMap,
      LoginRateLimiter.cleanup cfg now (LoginRateLimiter.cleanup cfg now m)
        = LoginRateLimiter.cleanup cfg now m := by
  intro m
  induction m with
  | nil => rfl
  | cons p rest ih =>
    cases p with
    | mk k info =>
      simp only [LoginRateLimiter.cleanup]
      by_cases hlk : (match info.locked_until with
          | some lu => decide (now < lu)
          | none => false) = true
      · rw [if_pos hlk]
        simp only [LoginRateLimiter.cleanup]
        rw [if_pos hlk, ih]
      · rw [if_neg hlk]
        by_cases he : (pruneList (saturatingSub now cfg.rate_window_secs)
            info.attempts).isEmpty
        · rw [if_pos he, ih]
        · rw [if_neg he]
          simp only [LoginRateLimiter.cleanup]
          rw [if_neg hlk]
          simp only [pruneList_idem]
          rw [if_neg he, ih]

theorem login_cleanup_locked_kept (cfg : RateLimitConfig) (now : Nat) :
    ∀ (m : LoginMap) (id : String) (info : LoginAttemptInfo) (lu : Nat),
      lookup m id = some info → info.locked_until = some lu → now < lu →
      lookup (LoginRateLimiter.cleanup cfg now m) id = some info := by
  intro m
  induction m with
  | nil => intro id info lu h; simp [lookup] at h
  | cons p rest ih =>
    intro id info lu h hlock hnow
    cases p with
    | mk k1 i1 =>
      simp only [lookup] at h
      by_cases hk : k1 = id
      · rw [if_pos hk] at h
        have hi : i1 = info := Option.some_injective _ h
        subst hi
        simp only [LoginRateLimiter.cleanup, hlock, hnow, decide_eq_true_eq,
          if_pos, lookup, hk]
      · rw [if_neg hk] at h
        simp only [LoginRateLimiter.cleanup]
        by_cases hlk : (match i1.locked_until with
            | some v => decide (now < v)
            | none => false) = true
        · rw [if_pos hlk]
          simp only [lookup, if_neg hk]
          exact ih id info lu h hlock hnow
        · rw [if_neg hlk]
          by_cases he : (pruneList (saturatingSub now cfg.rate_window_secs)
              i1.attempts).isEmpty
          · rw [if_pos he]
            exact ih id info lu h hlock hnow
          · rw [if_neg he]
            simp only [lookup, if_neg hk]
            exact ih id info lu h hlock hnow

theorem req_cleanup_inwindow_kept (cfg : RateLimitConfig) (now : Nat) :
    ∀ (m : ReqMap) (k : String) (l : List Nat),
      lookup m k = some l →
      (∃ t ∈ l, saturatingSub now cfg.rate_window_secs < t) →
      (lookup (RateLimiter.cleanup cfg now m) k).isSome = true := by
  intro m
  induction m with
  | nil => intro k l h; simp [lookup] at h
  | cons p rest ih =>
    intro k l h hex
    cases p with
    | mk k1 ts =>
      simp only [lookup] at h
      by_cases hk : k1 = k
      · rw [if_pos hk] at h
        have hts : ts = l := Option.some_injective _ h
        subst hts
        rcases hex with ⟨t, ht, hwt⟩
        have hmem : t ∈ pruneList (saturatingSub now cfg.rate_window_secs)
            ts := by
          simp only [pruneList, List.mem_filter, decide_eq_true_eq]
          exact ⟨ht, hwt⟩
        have hne : (pruneList (saturatingSub now cfg.rate_window_secs)
            ts).isEmpty = false := by
          rcases hp : pruneList (saturatingSub now cfg.rate_window_secs) ts
            with _ | _
          · rw [hp] at hmem; simp at hmem
          · rfl
        simp only [RateLimiter.cleanup, hne, Bool.false_eq_true, if_false,
          lookup, if_pos hk]
        rfl
      · rw [if_neg hk] at h
        simp only [RateLimiter.cleanup]
        by_cases he :
            (pruneList (saturatingSub now cfg.rate_window_secs) ts).isEmpty
        · rw [if_pos he]
          exact ih k l h hex
        · rw [if_neg he]
          simp only [lookup, if_neg hk]
          exact ih k l h hex

/-- C6: at a fixed `now`, running either component's sweep twice equals
running it once; the login sweep never removes an identifier whose
lockout deadline lies strictly in the future (it keeps the record
verbatim), and the request sweep never removes a key that still has a
timestamp strictly inside the window. -/
theorem c6_sweep_idempotent (cfg : RateLimitConfig) (m : ReqMap)
    (lm : LoginMap) (now : Nat) :
    RateLimiter.cleanup cfg now (RateLimiter.cleanup cfg now m)
      = RateLimiter.cleanup cfg now m
    ∧ LoginRateLimiter.cleanup cfg now (LoginRateLimiter.cleanup cfg now lm)
      = LoginRateLimiter.cleanup cfg now lm
    ∧ (∀ (id : String) (info : LoginAttemptInfo) (lu : Nat),
        lookup lm id = some info → info.locked_until = some lu → now < lu →
        lookup (LoginRateLimiter.cleanup cfg now lm) id = some info)
    ∧ (∀ (k : String) (l : List Nat), lookup m k = some l →
        (∃ t ∈ l, saturatingSub now cfg.rate_window_secs < t) →
        (lookup (RateLimiter.cleanup cfg now m) k).isSome = true) :=
  ⟨req_cleanup_idem cfg now m, login_cleanup_idem cfg now lm,
   fun id info lu h1 h2 h3 =>
     login_cleanup_locked_kept cfg now lm id info lu h1 h2 h3,
   fun k l h1 h2 => req_cleanup_inwindow_kept cfg now m k l h1 h2⟩

/-- Witness for C6: a locked identifier survives the sweep verbatim and
a key with an in-window timestamp is retained. -/
theorem c6_sweep_idempotent_witness :
    lookup (LoginRateLimiter.cleanup ⟨true, 2, 60, 5, 300⟩ 100
        [("u", ⟨[10], some 200⟩)]) "u" = some ⟨[10], some 200⟩
    ∧ (lookup (RateLimiter.cleanup ⟨true, 2, 60, 5, 300⟩ 100
        [("k", [90, 10])]) "k").isSome = true :=
  ⟨(c6_sweep_idempotent ⟨true, 2, 60, 5, 300⟩ [("k", [90, 10])]
      [("u", ⟨[10], some 200⟩)] 100).2.2.1 "u" ⟨[10], some 200⟩ 200
      (by decide) rfl (by decide),
   (c6_sweep_idempotent ⟨true, 2, 60, 5, 300⟩ [("k", [90, 10])]
      [("u", ⟨[10], some 200⟩)] 100).2.2.2 "k" [90, 10] (by decide)
      ⟨90, by decide⟩⟩

theorem login_cleanup_expired_kept (cfg : RateLimitConfig) (now : Nat) :
    ∀ (m : LoginMap) (id : String) (info : LoginAttemptInfo) (t : Nat),
      lookup m id = some info → info.locked_until = some t → t ≤ now →
      (pruneList (saturatingSub now cfg.rate_window_secs)
        info.attempts).isEmpty = false →
      lookup (LoginRateLimiter.cleanup cfg now m) id
        = some ⟨pruneList (saturatingSub now cfg.rate_window_secs)
            info.attempts, some t⟩ := by
  intro m
  induction m with
  | nil => intro id info t h; simp [lookup] at h
  | cons p rest ih =>
    intro id info t h hlock ht hne
    cases p with
    | mk k1 i1 =>
      simp only [lookup] at h
      by_cases hk : k1 = id
      · rw [if_pos hk] at h
        have hi : i1 = info := Option.some_injective _ h
        subst hi
        have hlk : (match i1.locked_until with
            | some lu => decide (now < lu)
            | none => false) = false := by
          rw [hlock]
          simp [Nat.not_lt.mpr ht]
        simp only [LoginRateLimiter.cleanup, hlk, Bool.false_eq_true,
          if_false, hne, lookup, if_pos hk]
        rw [hlock]
      · rw [if_neg hk] at h
        simp only [LoginRateLimiter.cleanup]
        by_cases hlk : (match i1.locked_until with
            | some v => decide (now < v)
            | none => false) = true
        · rw [if_pos hlk]
          simp only [lookup, if_neg hk]
          exact ih id info t h hlock ht hne
        · rw [if_neg hlk]
          by_cases he : (pruneList (saturatingSub now cfg.rate_window_secs)
              i1.attempts).isEmpty
          · rw [if_pos he]
            exact ih id info t h hlock ht hne
          · rw [if_neg he]
            simp only [lookup, if_neg hk]
            exact ih id info t h hlock ht hne

/-- C9: `record_failed_attempt` appends `now` without touching the
lockout field; `cleanup` keeps an expired deadline on every record it
retains; hence a failure recorded after the deadline passed but before
the first post-expiry check is erased by that check — the check clears
the deadline together with the whole history and succeeds — so the
stale failure never counts toward a new lockout. -/
theorem c9_stale_failure_never_counts (cfg : RateLimitConfig)
    (hen : cfg.enabled = true) (hmax : 0 < cfg.max_login_attempts) :
    (∀ (m : LoginMap) (id : String) (now : Nat),
      lookup (LoginRateLimiter.record_failed_attempt m id now) id
        = some ⟨((lookup m id).getD emptyInfo).attempts ++ [now],
            ((lookup m id).getD emptyInfo).locked_until⟩)
    ∧ (∀ (m : LoginMap) (id : String) (now t : Nat)
        (info : LoginAttemptInfo),
        lookup m id = some info → info.locked_until = some t → t ≤ now →
        (pruneList (saturatingSub now cfg.rate_window_secs)
          info.attempts).isEmpty = false →
        lookup (LoginRateLimiter.cleanup cfg now m) id
          = some ⟨pruneList (saturatingSub now cfg.rate_window_secs)
              info.attempts, some t⟩)
    ∧ (∀ (m : LoginMap) (id : String) (now1 now2 t : Nat),
        ((lookup m id).getD emptyInfo).locked_until = some t → t ≤ now2 →
        LoginRateLimiter.check_login_attempt cfg
            (LoginRateLimiter.record_failed_attempt m id now1) id now2
          = some (Except.ok (),
              update (LoginRateLimiter.record_failed_attempt m id now1) id
                emptyInfo)) := by
  refine ⟨?_, ?_, ?_⟩
  · intro m id now
    simp only [LoginRateLimiter.record_failed_attempt]
    exact lookup_update_self m id _
  · intro m id now t info h1 h2 h3 h4
    exact login_cleanup_expired_kept cfg now m id info t h1 h2 h3 h4
  · intro m id now1 now2 t hlock ht
    have hrec : lookup (LoginRateLimiter.record_failed_attempt m id now1) id
        = some ⟨((lookup m id).getD emptyInfo).attempts ++ [now1],
            ((lookup m id).getD emptyInfo).locked_until⟩ := by
      simp only [LoginRateLimiter.record_failed_attempt]
      exact lookup_update_self m id _
    have hopen : ∀ t2, ((lookup
        (LoginRateLimiter.record_failed_attempt m id now1) id).getD
          emptyInfo).locked_until = some t2 → t2 ≤ now2 := by
      intro t2 h2
      rw [hrec] at h2
      simp only [Option.getD_some] at h2
      rw [hlock] at h2
      exact (Option.some_injective _ h2) ▸ ht
    rw [check_login_eq_checkOpen cfg _ id now2 hen hopen, hrec]
    have hafter : ((some (LoginAttemptInfo.mk
        (((lookup m id).getD emptyInfo).attempts ++ [now1])
        (((lookup m id).getD emptyInfo).locked_until))).getD
          emptyInfo).afterExpiry now2 = emptyInfo := by
      simp only [Option.getD_some, LoginAttemptInfo.afterExpiry, hlock]
      simp [Nat.not_lt.mpr ht]
    rw [hafter]
    simp [LoginRateLimiter.checkOpen, emptyInfo, pruneList,
      Nat.not_le.mpr hmax]

/-- Witness for C9: deadline 40 expired by `now = 100`; a failure
recorded at 95 survives cleanup with the deadline intact and is then
erased by the first post-expiry check, which succeeds. -/
theorem c9_stale_failure_never_counts_witness :
    lookup (LoginRateLimiter.record_failed_attempt
        [("u", ⟨[90], some 40⟩)] "u" 95) "u"
      = some ⟨[90] ++ [95], some 40⟩
    ∧ lookup (LoginRateLimiter.cleanup ⟨true, 5, 60, 5, 300⟩ 100
        [("u", ⟨[90], some 40⟩)]) "u"
      = some ⟨pruneList (saturatingSub 100 60) [90], some 40⟩
    ∧ LoginRateLimiter.check_login_attempt ⟨true, 5, 60, 5, 300⟩
        (LoginRateLimiter.record_failed_attempt
          [("u", ⟨[90], some 40⟩)] "u" 95) "u" 100
      = some (Except.ok (),
          update (LoginRateLimiter.record_failed_attempt
            [("u", ⟨[90], some 40⟩)] "u" 95) "u" emptyInfo) := by
  have h := c9_stale_failure_never_counts ⟨true, 5, 60, 5, 300⟩ rfl
    (by decide)
  exact ⟨h.1 [("u", ⟨[90], some 40⟩)] "u" 95,
    h.2.1 [("u", ⟨[90], some 40⟩)] "u" 100 40 ⟨[90], some 40⟩ (by decide)
      rfl (by decide) (by decide),
    h.2.2 [("u", ⟨[90], some 40⟩)] "u" 95 100 40 (by decide) (by decide)⟩
